import Mathlib

/-!
Verification of the debris-track retrieval-and-derivation pipeline.

The development shallowly embeds the two source variants:
  * `debris-track.py`   — the strict variant (direct key access, no guards);
  * `debris-track-2.py` — the tolerant variant (`get` with defaults, the
    `if mmoti`/`if sma` guards on the derivation).

Floating-point doubles are modelled as real numbers.  Python's float `**`
at the non-integral exponents used by the source (2.0/3.0 and 0.5) is
real-valued only for a non-negative base; a negative base yields a
non-real (complex) value, and float division by zero raises.  Both escape
real arithmetic, so the embedded operations return `Option ℝ`, with
`none` marking "no real result" (raised error or complex value).
-/

/-- Gravitational parameter `GM = 398600441800000.0` (m³/s²), from both sources. -/
def GM : ℝ := 398600441800000

/-- Mean Earth radius `MRAD = 6378.137` (km), from both sources. -/
def MRAD : ℝ := 6378.137

/-- The literal `PI = 3.14159265358979` used by both sources (a rational
constant in the source, not the mathematical π). -/
def PI : ℝ := 3.14159265358979

/-- `TPI86 = 2.0 * PI / 86400.0`, radians per second per rev/day. -/
noncomputable def TPI86 : ℝ := 2 * PI / 86400

/-- `GM13 = GM ** (1.0/3.0)`, precomputed cube root of `GM`. -/
noncomputable def GM13 : ℝ := GM ^ ((1 : ℝ) / 3)

/-- Python float `**` at a non-integral exponent: real-valued for a
non-negative base, non-real (complex) for a negative base. -/
noncomputable def pyPow (b e : ℝ) : Option ℝ :=
  if b < 0 then none else some (b ^ e)

/-- Python float `/`: raises `ZeroDivisionError` on a zero denominator. -/
noncomputable def pyDiv (num den : ℝ) : Option ℝ :=
  if den = 0 then none else some (num / den)

/-- The five derived bindings of source lines `sma, apo, per, orbT, orbV`
(the average altitude is recomputed at write time as `(apo + per)/2`). -/
structure Derived where
  sma : ℝ
  apo : ℝ
  per : ℝ
  orbT : ℝ
  orbV : ℝ

/-- Tolerant variant, line 131: `sma = GM13 / ((TPI86 * mmoti) ** (2.0 / 3.0)) / 1000.0 if mmoti else 0`. -/
noncomputable def smaExpr2 (mmoti : ℝ) : Option ℝ :=
  if mmoti = 0 then some 0
  else (pyPow (TPI86 * mmoti) (2 / 3)).bind fun p =>
    (pyDiv GM13 p).map fun q => q / 1000

/-- Strict variant, line 98: `sma = GM13 / ((TPI86 * mmoti) ** (2.0 / 3.0)) / 1000.0` (no guard). -/
noncomputable def smaExpr1 (mmoti : ℝ) : Option ℝ :=
  (pyPow (TPI86 * mmoti) (2 / 3)).bind fun p =>
    (pyDiv GM13 p).map fun q => q / 1000

/-- Tolerant variant, line 135: `orbT = 2.0 * PI * ((smak ** 3.0) / GM) ** 0.5 if sma else 0`.
The exponent `3.0` is integral, so `smak ** 3.0` is an ordinary real cube. -/
noncomputable def orbTExpr2 (sma smak : ℝ) : Option ℝ :=
  if sma = 0 then some 0
  else (pyDiv (smak ^ (3 : ℕ)) GM).bind fun r =>
    (pyPow r 0.5).map fun t => 2 * PI * t

/-- Strict variant, line 102: `orbT = 2.0 * PI * ((smak ** 3.0) / GM) ** (0.5)` (no guard). -/
noncomputable def orbTExpr1 (smak : ℝ) : Option ℝ :=
  (pyDiv (smak ^ (3 : ℕ)) GM).bind fun r =>
    (pyPow r 0.5).map fun t => 2 * PI * t

/-- Tolerant variant, line 136: `orbV = (GM / smak) ** 0.5 if sma else 0`. -/
noncomputable def orbVExpr2 (sma smak : ℝ) : Option ℝ :=
  if sma = 0 then some 0
  else (pyDiv GM smak).bind fun r => pyPow r 0.5

/-- Strict variant, line 103: `orbV = (GM / smak) ** (0.5)` (no guard). -/
noncomputable def orbVExpr1 (smak : ℝ) : Option ℝ :=
  (pyDiv GM smak).bind fun r => pyPow r 0.5

/-- The derivation block of the tolerant variant (`debris-track-2.py`
lines 131–136): semi-major axis, apogee, perigee, period, velocity. -/
noncomputable def derive2 (mmoti ecc : ℝ) : Option Derived :=
  (smaExpr2 mmoti).bind fun sma =>
    let apo := sma * (1 + ecc) - MRAD
    let per := sma * (1 - ecc) - MRAD
    let smak := sma * 1000
    (orbTExpr2 sma smak).bind fun orbT =>
      (orbVExpr2 sma smak).bind fun orbV =>
        some ⟨sma, apo, per, orbT, orbV⟩

/-- The derivation block of the strict variant (`debris-track.py`
lines 98–103): identical formulas, no degeneracy guards. -/
noncomputable def derive1 (mmoti ecc : ℝ) : Option Derived :=
  (smaExpr1 mmoti).bind fun sma =>
    let apo := sma * (1 + ecc) - MRAD
    let per := sma * (1 - ecc) - MRAD
    let smak := sma * 1000
    (orbTExpr1 smak).bind fun orbT =>
      (orbVExpr1 smak).bind fun orbV =>
        some ⟨sma, apo, per, orbT, orbV⟩

/-- The real value of the semi-major axis (km) produced on the
non-degenerate path, `GM13 / ((TPI86*mmoti) ** (2/3)) / 1000`. -/
noncomputable def smaVal (m : ℝ) : ℝ := GM13 / (TPI86 * m) ^ ((2 : ℝ) / 3) / 1000

/-- The real value of the orbital period produced on the non-degenerate path. -/
noncomputable def orbTVal (m : ℝ) : ℝ :=
  2 * PI * ((smaVal m * 1000) ^ (3 : ℕ) / GM) ^ ((0.5 : ℝ))

/-- The real value of the orbital velocity produced on the non-degenerate path. -/
noncomputable def orbVVal (m : ℝ) : ℝ := (GM / (smaVal m * 1000)) ^ ((0.5 : ℝ))

/-- All five derived values on the non-degenerate path. -/
noncomputable def derivedVal (m ecc : ℝ) : Derived :=
  ⟨smaVal m, smaVal m * (1 + ecc) - MRAD, smaVal m * (1 - ecc) - MRAD,
    orbTVal m, orbVVal m⟩

/-- One fetched element record; `none` marks a field absent from the
service payload (numeric values are the parsed floats). -/
structure Record where
  noradCatId : Option ℤ
  objectName : Option String
  epoch : Option String
  revAtEpoch : Option ℝ
  inclination : Option ℝ
  eccentricity : Option ℝ
  meanMotion : Option ℝ
  raOfAscNode : Option ℝ
  argOfPericenter : Option ℝ
  meanAnomaly : Option ℝ

/-- `float(e.get('MEAN_MOTION', 0))` — tolerant variant, line 118. -/
def mmotiOf (e : Record) : ℝ := e.meanMotion.getD 0

/-- `float(e.get('ECCENTRICITY', 0))` — tolerant variant, line 119. -/
def eccOf (e : Record) : ℝ := e.eccentricity.getD 0

/-- `int(e.get('NORAD_CAT_ID', 0))` — tolerant variant, line 122. -/
def catalogIdOf (e : Record) : ℤ := e.noradCatId.getD 0

/-- `e.get('OBJECT_NAME', 'UNKNOWN')` — tolerant variant, line 114. -/
def nameOf (e : Record) : String := e.objectName.getD "UNKNOWN"

/-- `e.get('EPOCH', 'UNKNOWN')` — tolerant variant, line 115. -/
def epochOf (e : Record) : String := e.epoch.getD "UNKNOWN"

/-- `float(e.get('REV_AT_EPOCH', 0))` — tolerant variant, line 125. -/
def revAtEpochOf (e : Record) : ℝ := e.revAtEpoch.getD 0

/-- `float(e.get('INCLINATION', 0))` — tolerant variant, line 126. -/
def inclinationOf (e : Record) : ℝ := e.inclination.getD 0

/-- `float(e.get('RA_OF_ASC_NODE', 0))` — tolerant variant, line 142. -/
def raanOf (e : Record) : ℝ := e.raOfAscNode.getD 0

/-- `float(e.get('ARG_OF_PERICENTER', 0))` — tolerant variant, line 143. -/
def argpOf (e : Record) : ℝ := e.argOfPericenter.getD 0

/-- `float(e.get('MEAN_ANOMALY', 0))` — tolerant variant, line 144. -/
def mnaOf (e : Record) : ℝ := e.meanAnomaly.getD 0

/-- A value written to one worksheet cell. -/
inductive Cell where
  | int (i : ℤ)
  | str (s : String)
  | real (x : ℝ)

/-- Observable remote/timing events of one run. -/
inductive Ev where
  | login
  | listQuery
  | fetch (s : ℤ)
  | sleep (secs : ℕ)
deriving DecidableEq

/-- The remote catalog service, as the pipeline observes it: response
status codes and parsed bodies for the three request kinds. -/
structure Service where
  loginStatus : ℕ
  listStatus : ℕ
  listBody : List Record
  fetchStatus : ℤ → ℕ
  fetchBody : ℤ → List Record

/-- How a run aborts.  `MyError.__init__(self, args)` declares exactly
one parameter besides `self`, but every raise site in both sources calls
`MyError(resp, msg)` with two arguments, so the interpreter raises
`TypeError` before any `MyError` is constructed: `typeError` carries the
interpreter's message.  `myError` is the exception a correct one-argument
call would have produced; the embedded program never reaches it.
`nonRealWrite` marks the `TypeError` raised when a non-real derived value
reaches a cell write. -/
inductive RunError where
  | myError (msg : String)
  | typeError (msg : String)
  | nonRealWrite
deriving DecidableEq

/-- The message of the `TypeError` raised at every `MyError(resp, msg)`
call site: two positional arguments passed to the one-argument
`__init__`. -/
def arityMsg : String :=
  "MyError.__init__() takes 2 positional arguments but 3 were given"

/-- Evaluating `raise MyError(resp, msg)` in the source: the constructor
call itself raises `TypeError`, and the intended message `msg` is
discarded unread. -/
def raiseMyError (_msg : String) : RunError := RunError.typeError arityMsg

/-- The 16 cell writes for one element record (tolerant variant,
lines 122–147), at worksheet line `w`, columns 0–15 in source order.
If the derivation has no real result the record fails (`none`): in the
source, the write of column 7 then raises mid-row; the partial cells of
columns 0–6 are not modelled since no claim depends on them. -/
noncomputable def processRecord (w : ℕ) (e : Record) :
    Option (List (ℕ × ℕ × Cell)) :=
  (derive2 (mmotiOf e) (eccOf e)).map fun d =>
    [(w, 0, Cell.int (catalogIdOf e)),
     (w, 1, Cell.str (nameOf e)),
     (w, 2, Cell.str (epochOf e)),
     (w, 3, Cell.real (revAtEpochOf e)),
     (w, 4, Cell.real (inclinationOf e)),
     (w, 5, Cell.real (eccOf e)),
     (w, 6, Cell.real (mmotiOf e)),
     (w, 7, Cell.real d.apo),
     (w, 8, Cell.real d.per),
     (w, 9, Cell.real ((d.apo + d.per) / 2)),
     (w, 10, Cell.real (raanOf e)),
     (w, 11, Cell.real (argpOf e)),
     (w, 12, Cell.real (mnaOf e)),
     (w, 13, Cell.real d.sma),
     (w, 14, Cell.real d.orbT),
     (w, 15, Cell.real d.orbV)]

/-- The inner `for e in retData` loop: one row per record, `wsline += 1`
after each; returns the accumulated writes and the final line number. -/
noncomputable def processRecords :
    ℕ → List Record → Option (List (ℕ × ℕ × Cell) × ℕ)
  | w, [] => some ([], w)
  | w, e :: rest =>
    (processRecord w e).bind fun row =>
      (processRecords (w + 1) rest).map fun p => (row ++ p.1, p.2)

/-- The outer `for s in debrisIds` loop (tolerant variant, lines 104–156):
per-object fetch, status check, record processing, and the rate-limit
counter `maxs` (`maxs += 1; if maxs > 18: sleep(60); maxs = 1`).
Returns the event trace, the cell writes, and the final `wsline` or the
raised error. -/
noncomputable def fetchLoop (svc : Service) :
    List ℤ → ℕ → ℕ → List Ev × List (ℕ × ℕ × Cell) × Except RunError ℕ
  | [], _, wsline => ([], [], Except.ok wsline)
  | s :: rest, maxs, wsline =>
    if svc.fetchStatus s ≠ 200 then
      ([Ev.fetch s], [],
        Except.error (raiseMyError ("GET fail for debris object " ++ toString s)))
    else
      match processRecords wsline (svc.fetchBody s) with
      | none => ([Ev.fetch s], [], Except.error RunError.nonRealWrite)
      | some (ws, wsline2) =>
        if maxs + 1 > 18 then
          let r := fetchLoop svc rest 1 wsline2
          (Ev.fetch s :: Ev.sleep 60 :: r.1, ws ++ r.2.1, r.2.2)
        else
          let r := fetchLoop svc rest (maxs + 1) wsline2
          (Ev.fetch s :: r.1, ws ++ r.2.1, r.2.2)

/-- The whole run (tolerant variant, lines 88–156): login, candidate-list
query, id extraction (dropping records without `NORAD_CAT_ID`), then the
fetch loop starting at `maxs = 1`, `wsline = 3`. -/
noncomputable def runPipeline (svc : Service) :
    List Ev × List (ℕ × ℕ × Cell) × Except RunError ℕ :=
  if svc.loginStatus ≠ 200 then
    ([Ev.login], [], Except.error (raiseMyError "POST fail on login"))
  else if svc.listStatus ≠ 200 then
    ([Ev.login, Ev.listQuery], [],
      Except.error (raiseMyError "GET fail when requesting debris data"))
  else
    let ids := svc.listBody.filterMap Record.noradCatId
    let r := fetchLoop svc ids 1 3
    (Ev.login :: Ev.listQuery :: r.1, r.2.1, r.2.2)

/-- The rate policy of the spec, as a trace shape: with a budget of `b`
more fetches before the pause, emit the next `b` fetches, then (if the
budget was exhausted) one 60-unit sleep, then repeat with budget 18. -/
def chunkTrace (b : ℕ) (ids : List ℤ) : List Ev :=
  (ids.take b).map Ev.fetch ++
    (if _h : 0 < b ∧ b ≤ ids.length then Ev.sleep 60 :: chunkTrace 18 (ids.drop b)
     else [])
termination_by ids.length
decreasing_by simp [List.length_drop]; omega

/-- `true` exactly on per-object fetch events. -/
def isFetchEv : Ev → Bool
  | Ev.fetch _ => true
  | _ => false

/-- The writes produced by the successfully processed prefix of the id
list, used to state that a failed fetch stops all further output. -/
noncomputable def doneWrites (svc : Service) :
    List ℤ → ℕ → List (ℕ × ℕ × Cell)
  | [], _ => []
  | s :: rest, w =>
    match processRecords w (svc.fetchBody s) with
    | none => []
    | some (ws, w2) => ws ++ doneWrites svc rest w2

/-- The element records fetched for a given id list, in processing order. -/
def recsOf (svc : Service) (ids : List ℤ) : List Record :=
  (ids.map svc.fetchBody).flatten

/-- All element records of a run, in processing order. -/
def allRecords (svc : Service) : List Record :=
  recsOf svc (svc.listBody.filterMap Record.noradCatId)

/-- A record with every field absent. -/
def recEmpty : Record := ⟨none, none, none, none, none, none, none, none, none, none⟩

/-- A record carrying only a `NORAD_CAT_ID`. -/
def recId (n : ℤ) : Record := ⟨some n, none, none, none, none, none, none, none, none, none⟩

/-- The end-to-end example record of the spec: catalog id 25544, mean
motion 15.5 rev/day, eccentricity 0.0003, inclination 51.6°. -/
def recISS : Record :=
  ⟨some 25544, some "ISS (ZARYA)", none, none, some 51.6, some 0.0003,
    some 15.5, none, none, none⟩

/-- A service whose login is rejected. -/
def svcAuthFail : Service := ⟨500, 200, [], fun _ => 200, fun _ => []⟩

/-- A service where object 2's per-object fetch fails. -/
def svcFetchFail : Service :=
  ⟨200, 200, [recId 1, recId 2], fun s => if s = 2 then 404 else 200, fun _ => []⟩

/-- A service where object 7's per-object fetch fails (7 chosen because
the digit 7 does not occur in the interpreter's arity message). -/
def svcFetchFail7 : Service :=
  ⟨200, 200, [recId 1, recId 7], fun s => if s = 7 then 404 else 200, fun _ => []⟩

/-- `sub` occurs in `msg` as a contiguous substring. -/
def strContains (msg sub : String) : Prop :=
  ∃ pre suf : String, msg = pre ++ sub ++ suf

/-- A service answering every request successfully with empty bodies. -/
def svcAllOk : Service := ⟨200, 200, [], fun _ => 200, fun _ => []⟩

/-- A service returning a single element record for a single object. -/
def svcOne : Service := ⟨200, 200, [recISS], fun _ => 200, fun _ => [recISS]⟩

/-- Twenty object ids, enough for one full rate-limit cycle and more. -/
def idsTwenty : List ℤ := (List.range 20).map fun n => (n : ℤ) + 1

lemma PI_pos : (0 : ℝ) < PI := by norm_num [PI]

lemma TPI86_pos : (0 : ℝ) < TPI86 := by
  unfold TPI86
  have := PI_pos
  positivity

lemma GM_pos : (0 : ℝ) < GM := by norm_num [GM]

lemma GM13_pos : (0 : ℝ) < GM13 := Real.rpow_pos_of_pos GM_pos _

lemma smaVal_pos {m : ℝ} (hm : 0 < m) : 0 < smaVal m := by
  unfold smaVal
  have hb : (0 : ℝ) < TPI86 * m := mul_pos TPI86_pos hm
  have := GM13_pos
  have := Real.rpow_pos_of_pos hb ((2 : ℝ) / 3)
  positivity

lemma smak_pos {m : ℝ} (hm : 0 < m) : 0 < smaVal m * 1000 :=
  mul_pos (smaVal_pos hm) (by norm_num)

lemma orbT_base_pos {m : ℝ} (hm : 0 < m) :
    (0 : ℝ) < (smaVal m * 1000) ^ (3 : ℕ) / GM :=
  div_pos (pow_pos (smak_pos hm) 3) GM_pos

lemma orbV_base_pos {m : ℝ} (hm : 0 < m) : (0 : ℝ) < GM / (smaVal m * 1000) :=
  div_pos GM_pos (smak_pos hm)

lemma orbTVal_pos {m : ℝ} (hm : 0 < m) : 0 < orbTVal m := by
  unfold orbTVal
  have h2 : (0 : ℝ) < ((smaVal m * 1000) ^ (3 : ℕ) / GM) ^ ((0.5 : ℝ)) :=
    Real.rpow_pos_of_pos (orbT_base_pos hm) _
  have := PI_pos
  positivity

lemma orbVVal_pos {m : ℝ} (hm : 0 < m) : 0 < orbVVal m :=
  Real.rpow_pos_of_pos (orbV_base_pos hm) _

lemma smaExpr2_eval {m : ℝ} (hm : 0 < m) : smaExpr2 m = some (smaVal m) := by
  have hb : (0 : ℝ) < TPI86 * m := mul_pos TPI86_pos hm
  have hp : (0 : ℝ) < (TPI86 * m) ^ ((2 : ℝ) / 3) := Real.rpow_pos_of_pos hb _
  simp [smaExpr2, pyPow, pyDiv, hm.ne', not_lt.mpr hb.le, hp.ne', smaVal]

lemma smaExpr1_eval {m : ℝ} (hm : 0 < m) : smaExpr1 m = some (smaVal m) := by
  have hb : (0 : ℝ) < TPI86 * m := mul_pos TPI86_pos hm
  have hp : (0 : ℝ) < (TPI86 * m) ^ ((2 : ℝ) / 3) := Real.rpow_pos_of_pos hb _
  simp [smaExpr1, pyPow, pyDiv, not_lt.mpr hb.le, hp.ne', smaVal]

lemma orbTExpr2_eval {m : ℝ} (hm : 0 < m) :
    orbTExpr2 (smaVal m) (smaVal m * 1000) = some (orbTVal m) := by
  have hs := smaVal_pos hm
  simp [orbTExpr2, pyPow, pyDiv, hs.ne', GM_pos.ne',
    not_lt.mpr (orbT_base_pos hm).le, orbTVal]

lemma orbTExpr1_eval {m : ℝ} (hm : 0 < m) :
    orbTExpr1 (smaVal m * 1000) = some (orbTVal m) := by
  simp [orbTExpr1, pyPow, pyDiv, GM_pos.ne',
    not_lt.mpr (orbT_base_pos hm).le, orbTVal]

lemma orbVExpr2_eval {m : ℝ} (hm : 0 < m) :
    orbVExpr2 (smaVal m) (smaVal m * 1000) = some (orbVVal m) := by
  have hs := smaVal_pos hm
  simp [orbVExpr2, pyPow, pyDiv, hs.ne', (smak_pos hm).ne',
    not_lt.mpr (orbV_base_pos hm).le, orbVVal]

lemma orbVExpr1_eval {m : ℝ} (hm : 0 < m) :
    orbVExpr1 (smaVal m * 1000) = some (orbVVal m) := by
  simp [orbVExpr1, pyPow, pyDiv, (smak_pos hm).ne',
    not_lt.mpr (orbV_base_pos hm).le, orbVVal]

/-- On a positive mean motion the tolerant derivation returns exactly the
closed-form derived values. -/
lemma derive2_eval {m : ℝ} (ecc : ℝ) (hm : 0 < m) :
    derive2 m ecc = some (derivedVal m ecc) := by
  simp [derive2, smaExpr2_eval hm, orbTExpr2_eval hm, orbVExpr2_eval hm, derivedVal]

/-- On a positive mean motion the strict derivation returns exactly the
closed-form derived values. -/
lemma derive1_eval {m : ℝ} (ecc : ℝ) (hm : 0 < m) :
    derive1 m ecc = some (derivedVal m ecc) := by
  simp [derive1, smaExpr1_eval hm, orbTExpr1_eval hm, orbVExpr1_eval hm, derivedVal]

/-- At zero mean motion the tolerant derivation succeeds with sentinel 0
for `sma`, `orbT`, `orbV` — but the altitudes come out as `-MRAD`. -/
lemma derive2_zero (ecc : ℝ) : derive2 0 ecc = some ⟨0, -MRAD, -MRAD, 0, 0⟩ := by
  simp [derive2, smaExpr2, orbTExpr2, orbVExpr2]

/-- A negative mean motion reaches the fractional power with a negative
base in the tolerant variant: no real result. -/
lemma derive2_neg {m : ℝ} (ecc : ℝ) (hm : m < 0) : derive2 m ecc = none := by
  have hb : TPI86 * m < 0 := mul_neg_of_pos_of_neg TPI86_pos hm
  simp [derive2, smaExpr2, pyPow, hm.ne, hb]

/-- A negative mean motion reaches the fractional power with a negative
base in the strict variant as well: no real result. -/
lemma derive1_neg {m : ℝ} (ecc : ℝ) (hm : m < 0) : derive1 m ecc = none := by
  have hb : TPI86 * m < 0 := mul_neg_of_pos_of_neg TPI86_pos hm
  simp [derive1, smaExpr1, pyPow, hb]

/-- Zero mean motion in the strict variant: `(TPI86*0) ** (2/3) = 0` and the
following division by it raises `ZeroDivisionError`. -/
lemma derive1_zero (ecc : ℝ) : derive1 0 ecc = none := by
  simp [derive1, smaExpr1, pyPow, pyDiv, Real.zero_rpow (by norm_num : ((2:ℝ)/3) ≠ 0)]

lemma rpow_third_cube {c : ℝ} (hc : 0 ≤ c) : (c ^ (3 : ℕ)) ^ ((1 : ℝ) / 3) = c := by
  rw [← Real.rpow_natCast c 3, ← Real.rpow_mul hc]
  norm_num

lemma rpow_third_le {x c : ℝ} (hx : 0 ≤ x) (hc : 0 ≤ c) (h : x ≤ c ^ (3 : ℕ)) :
    x ^ ((1 : ℝ) / 3) ≤ c := by
  have h2 := Real.rpow_le_rpow hx h (by norm_num : (0 : ℝ) ≤ 1 / 3)
  rwa [rpow_third_cube hc] at h2

lemma le_rpow_third {x c : ℝ} (hc : 0 ≤ c) (h : c ^ (3 : ℕ) ≤ x) :
    c ≤ x ^ ((1 : ℝ) / 3) := by
  have h2 := Real.rpow_le_rpow (by positivity) h (by norm_num : (0 : ℝ) ≤ 1 / 3)
  rwa [rpow_third_cube hc] at h2

/-- `sma` in meters is the cube root of `GM / n²` with `n` the angular rate. -/
lemma smaKm_eq_cbrt {m : ℝ} (hm : 0 < m) :
    smaVal m * 1000 = (GM / (TPI86 * m) ^ (2 : ℕ)) ^ ((1 : ℝ) / 3) := by
  have hb : (0 : ℝ) < TPI86 * m := mul_pos TPI86_pos hm
  have hx : (TPI86 * m) ^ ((2 : ℝ) / 3) = ((TPI86 * m) ^ (2 : ℕ)) ^ ((1 : ℝ) / 3) := by
    rw [← Real.rpow_natCast (TPI86 * m) 2, ← Real.rpow_mul hb.le]
    norm_num
  rw [Real.div_rpow GM_pos.le (by positivity : (0 : ℝ) ≤ (TPI86 * m) ^ (2 : ℕ)), ← hx]
  unfold smaVal GM13
  rw [div_mul_cancel₀]
  norm_num

lemma smaKm_cube {m : ℝ} (hm : 0 < m) :
    (smaVal m * 1000) ^ (3 : ℕ) = GM / (TPI86 * m) ^ (2 : ℕ) := by
  have hX : (0 : ℝ) ≤ GM / (TPI86 * m) ^ (2 : ℕ) :=
    div_nonneg GM_pos.le (by positivity)
  rw [smaKm_eq_cbrt hm, ← Real.rpow_natCast _ 3, ← Real.rpow_mul hX]
  norm_num

/-- The derived period is exactly `86400 / meanMotion` seconds. -/
lemma orbTVal_eq {m : ℝ} (hm : 0 < m) : orbTVal m = 86400 / m := by
  have hb : (0 : ℝ) < TPI86 * m := mul_pos TPI86_pos hm
  unfold orbTVal
  rw [smaKm_cube hm]
  have h1 : GM / (TPI86 * m) ^ (2 : ℕ) / GM = ((TPI86 * m)⁻¹) ^ (2 : ℕ) := by
    field_simp [GM_pos.ne']
    ring
  rw [h1]
  have h2 : (((TPI86 * m)⁻¹) ^ (2 : ℕ)) ^ ((0.5 : ℝ)) = (TPI86 * m)⁻¹ := by
    rw [← Real.rpow_natCast ((TPI86 * m)⁻¹) 2, ← Real.rpow_mul (inv_nonneg.mpr hb.le)]
    norm_num
  rw [h2]
  unfold TPI86
  have h3 : PI ≠ 0 := PI_pos.ne'
  have h4 : m ≠ 0 := hm.ne'
  field_simp
  ring


/-- The derived velocity is the square root of `GM / (sma * 1000)`. -/
lemma orbVVal_eq_sqrt (m : ℝ) : orbVVal m = Real.sqrt (GM / (smaVal m * 1000)) := by
  unfold orbVVal
  rw [Real.sqrt_eq_rpow]
  congr 1
  norm_num

lemma sqrt_le_of_le_sq {x c : ℝ} (hc : 0 ≤ c) (h : x ≤ c ^ (2 : ℕ)) :
    Real.sqrt x ≤ c := by
  calc Real.sqrt x ≤ Real.sqrt (c ^ (2 : ℕ)) := Real.sqrt_le_sqrt h
  _ = c := Real.sqrt_sq hc

lemma le_sqrt_of_sq_le {x c : ℝ} (hc : 0 ≤ c) (h : c ^ (2 : ℕ) ≤ x) :
    c ≤ Real.sqrt x := by
  calc c = Real.sqrt (c ^ (2 : ℕ)) := (Real.sqrt_sq hc).symm
  _ ≤ Real.sqrt x := Real.sqrt_le_sqrt h

lemma n155_sq_pos : (0 : ℝ) < (TPI86 * 15.5) ^ (2 : ℕ) :=
  pow_pos (mul_pos TPI86_pos (by norm_num)) 2

/-- Exact rational bracketing of the semi-major axis at mean motion 15.5. -/
lemma smaVal_155_bounds : 6790 ≤ smaVal 15.5 ∧ smaVal 15.5 ≤ 6800 := by
  have h155 : (0 : ℝ) < 15.5 := by norm_num
  have hA := smaKm_eq_cbrt h155
  have hX : (0 : ℝ) ≤ GM / (TPI86 * 15.5) ^ (2 : ℕ) :=
    div_nonneg GM_pos.le n155_sq_pos.le
  have hlo : (6790000 : ℝ) ≤ (GM / (TPI86 * 15.5) ^ (2 : ℕ)) ^ ((1 : ℝ) / 3) := by
    apply le_rpow_third (by norm_num)
    rw [le_div_iff₀ n155_sq_pos]
    norm_num [TPI86, PI, GM]
  have hhi : (GM / (TPI86 * 15.5) ^ (2 : ℕ)) ^ ((1 : ℝ) / 3) ≤ 6800000 := by
    apply rpow_third_le hX (by norm_num)
    rw [div_le_iff₀ n155_sq_pos]
    norm_num [TPI86, PI, GM]
  rw [← hA] at hlo hhi
  constructor <;> linarith

/-- Exact rational bracketing of the velocity (in m/s) at mean motion 15.5. -/
lemma orbVVal_155_bounds : 7656 ≤ orbVVal 15.5 ∧ orbVVal 15.5 ≤ 7662 := by
  have h155 : (0 : ℝ) < 15.5 := by norm_num
  have hsma := smaVal_155_bounds
  have hsk : (0 : ℝ) < smaVal 15.5 * 1000 := smak_pos h155
  have hsk_lo : (6790000 : ℝ) ≤ smaVal 15.5 * 1000 := by linarith [hsma.1]
  have hsk_hi : smaVal 15.5 * 1000 ≤ 6800000 := by linarith [hsma.2]
  rw [orbVVal_eq_sqrt]
  constructor
  · apply le_sqrt_of_sq_le (by norm_num)
    calc (7656 : ℝ) ^ (2 : ℕ) ≤ GM / 6800000 := by norm_num [GM]
    _ ≤ GM / (smaVal 15.5 * 1000) := by gcongr; exact GM_pos.le
  · apply sqrt_le_of_le_sq (by norm_num)
    calc GM / (smaVal 15.5 * 1000) ≤ GM / 6790000 := by gcongr; exact GM_pos.le
    _ ≤ (7662 : ℝ) ^ (2 : ℕ) := by norm_num [GM]

/-- C1 counterexample: for the record with `MEAN_MOTION` absent
(defaulting to 0) the tolerant derivation yields apogee altitude
`-MRAD = -6378.137`, which is not the sentinel 0 the claim asserts for
every derived field. -/
theorem c1_counterexample :
    (derive2 (mmotiOf recEmpty) (eccOf recEmpty)).map Derived.apo = some (-MRAD) ∧
      (-MRAD : ℝ) ≠ 0 := by
  constructor
  · rw [show mmotiOf recEmpty = 0 from rfl, show eccOf recEmpty = 0 from rfl,
      derive2_zero]
    rfl
  · norm_num [MRAD]

/-- C1 (amended): under the tolerant policy, a record whose MEAN_MOTION
is 0 or absent derives without raising, with sentinel 0 for
semiMajorAxisKm, periodSeconds and velocityKmPerSec; but the apogee,
perigee and average altitude fields all come out as `-MRAD`
(= -6378.137), not 0, for every eccentricity. -/
theorem c1_zero_mmoti_sentinel (e : Record) (w : ℕ) (h : mmotiOf e = 0) :
    derive2 (mmotiOf e) (eccOf e) = some ⟨0, -MRAD, -MRAD, 0, 0⟩ ∧
      (processRecord w e).isSome = true := by
  constructor
  · rw [h, derive2_zero]
  · simp [processRecord, h, derive2_zero]

/-- C1 witness: the empty record instantiates the amended theorem. -/
theorem c1_witness :
    mmotiOf recEmpty = 0 ∧
      derive2 (mmotiOf recEmpty) (eccOf recEmpty) = some ⟨0, -MRAD, -MRAD, 0, 0⟩ :=
  ⟨rfl, (c1_zero_mmoti_sentinel recEmpty 3 rfl).1⟩

/-- C3 counterexample: at mean motion -1 the tolerant guard (`if mmoti`)
passes, the fractional power receives a negative base, and there is no
real result; the strict variant divides by zero at mean motion 0. -/
theorem c3_counterexample : derive2 (-1) 0 = none ∧ derive1 0 0 = none :=
  ⟨derive2_neg 0 (by norm_num), derive1_zero 0⟩

/-- C3 (amended): only the zero case is guarded, and only in the tolerant
variant.  Mean motion 0 yields the sentinel there without any division by
zero; but every negative mean motion reaches the fractional
exponentiation with a negative base in both variants (non-real result),
and the strict variant divides by zero at mean motion 0. -/
theorem c3_degenerate_guard (m ecc : ℝ) :
    (m = 0 → derive2 m ecc = some ⟨0, -MRAD, -MRAD, 0, 0⟩ ∧ derive1 m ecc = none) ∧
      (m < 0 → derive2 m ecc = none ∧ derive1 m ecc = none) := by
  constructor
  · rintro rfl
    exact ⟨derive2_zero ecc, derive1_zero ecc⟩
  · intro hm
    exact ⟨derive2_neg ecc hm, derive1_neg ecc hm⟩

/-- C3 witness: mean motion -2 instantiates the negative branch. -/
theorem c3_witness : (-2 : ℝ) < 0 ∧ derive2 (-2) 0.5 = none :=
  ⟨by norm_num, ((c3_degenerate_guard (-2) 0.5).2 (by norm_num)).1⟩

/-- C7: a positive mean motion derives (in both variants) a strictly
positive semi-major axis, period and velocity. -/
theorem c7_positive_derived (m ecc : ℝ) (hm : 0 < m) :
    derive2 m ecc = some (derivedVal m ecc) ∧
      derive1 m ecc = some (derivedVal m ecc) ∧
      0 < (derivedVal m ecc).sma ∧ 0 < (derivedVal m ecc).orbT ∧
      0 < (derivedVal m ecc).orbV :=
  ⟨derive2_eval ecc hm, derive1_eval ecc hm, smaVal_pos hm, orbTVal_pos hm,
    orbVVal_pos hm⟩

/-- C7 witness at the example input. -/
theorem c7_witness : (0 : ℝ) < 15.5 ∧ 0 < (derivedVal 15.5 0.0003).sma :=
  ⟨by norm_num, (c7_positive_derived 15.5 0.0003 (by norm_num)).2.2.1⟩

/-- C8: for positive mean motion and eccentricity in [0,1) the apogee
altitude is at least the perigee altitude, and at eccentricity 0 the
apogee, perigee and average altitudes coincide. -/
theorem c8_apo_ge_per (m ecc : ℝ) (hm : 0 < m) (h0 : 0 ≤ ecc) (h1 : ecc < 1) :
    derive2 m ecc = some (derivedVal m ecc) ∧
      (derivedVal m ecc).per ≤ (derivedVal m ecc).apo ∧
      (ecc = 0 →
        (derivedVal m ecc).apo = (derivedVal m ecc).per ∧
        ((derivedVal m ecc).apo + (derivedVal m ecc).per) / 2 =
          (derivedVal m ecc).apo) := by
  refine ⟨derive2_eval ecc hm, ?_, ?_⟩
  · have hs := smaVal_pos hm
    show smaVal m * (1 - ecc) - MRAD ≤ smaVal m * (1 + ecc) - MRAD
    nlinarith
  · rintro rfl
    constructor
    · show smaVal m * (1 + 0) - MRAD = smaVal m * (1 - 0) - MRAD
      ring
    · show (smaVal m * (1 + 0) - MRAD + (smaVal m * (1 - 0) - MRAD)) / 2 =
        smaVal m * (1 + 0) - MRAD
      ring

/-- C8 witness at the example input. -/
theorem c8_witness :
    (0 : ℝ) < 15.5 ∧ (0 : ℝ) ≤ 0.0003 ∧ (0.0003 : ℝ) < 1 ∧
      (derivedVal 15.5 0.0003).per ≤ (derivedVal 15.5 0.0003).apo :=
  ⟨by norm_num, by norm_num, by norm_num,
    (c8_apo_ge_per 15.5 0.0003 (by norm_num) (by norm_num) (by norm_num)).2.1⟩

/-- C10: the average of the apogee and perigee altitudes is exactly
`semiMajorAxisKm - MRAD`, independent of the eccentricity. -/
theorem c10_average_altitude (m ecc : ℝ) (hm : 0 < m) :
    derive2 m ecc = some (derivedVal m ecc) ∧
      ((derivedVal m ecc).apo + (derivedVal m ecc).per) / 2 = smaVal m - MRAD := by
  refine ⟨derive2_eval ecc hm, ?_⟩
  show (smaVal m * (1 + ecc) - MRAD + (smaVal m * (1 - ecc) - MRAD)) / 2 =
    smaVal m - MRAD
  ring

/-- C10 witness at an eccentric example. -/
theorem c10_witness :
    (0 : ℝ) < 15.5 ∧
      ((derivedVal 15.5 0.7).apo + (derivedVal 15.5 0.7).per) / 2 =
        smaVal 15.5 - MRAD :=
  ⟨by norm_num, (c10_average_altitude 15.5 0.7 (by norm_num)).2⟩

/-- C2 counterexample: at the example input (MEAN_MOTION 15.5,
ECCENTRICITY 0.0003) the derived velocity is not within 0.05 of 7.66 —
the code's value is about 7659, in metres per second. -/
theorem c2_counterexample :
    derive2 15.5 0.0003 = some (derivedVal 15.5 0.0003) ∧
      ¬ |(derivedVal 15.5 0.0003).orbV - 7.66| ≤ 0.05 := by
  refine ⟨derive2_eval 0.0003 (by norm_num), ?_⟩
  show ¬ |orbVVal 15.5 - 7.66| ≤ 0.05
  rw [not_le]
  have h1 : (7656 : ℝ) ≤ orbVVal 15.5 := orbVVal_155_bounds.1
  have h2 := le_abs_self (orbVVal 15.5 - 7.66)
  linarith

/-- C2 (amended): for every positive mean motion the derived velocity
equals `sqrt(GM / (semiMajorAxisKm * 1000))` — a value in metres per
second, not kilometres per second; at the example input the derivation
yields semiMajorAxisKm within 5 of 6795, periodSeconds within 5 of 5571,
and velocity within 50 of 7660 m/s (1000 times the claimed 7.66). -/
theorem c2_velocity_formula (m ecc : ℝ) (hm : 0 < m) :
    (derive2 m ecc = some (derivedVal m ecc) ∧
      derive1 m ecc = some (derivedVal m ecc) ∧
      (derivedVal m ecc).orbV = Real.sqrt (GM / (smaVal m * 1000))) ∧
      |smaVal 15.5 - 6795| ≤ 5 ∧ |orbTVal 15.5 - 5571| ≤ 5 ∧
      |orbVVal 15.5 - 7660| ≤ 50 := by
  refine ⟨⟨derive2_eval ecc hm, derive1_eval ecc hm, orbVVal_eq_sqrt m⟩, ?_, ?_, ?_⟩
  · rw [abs_le]
    have h := smaVal_155_bounds
    constructor <;> linarith [h.1, h.2]
  · rw [abs_le, orbTVal_eq (by norm_num : (0 : ℝ) < 15.5)]
    constructor <;> norm_num
  · rw [abs_le]
    have h := orbVVal_155_bounds
    constructor <;> linarith [h.1, h.2]

/-- C2 witness at the example input. -/
theorem c2_witness : (0 : ℝ) < 15.5 ∧ |smaVal 15.5 - 6795| ≤ 5 :=
  ⟨by norm_num, (c2_velocity_formula 15.5 0.0003 (by norm_num)).2.1⟩

lemma chunkTrace_nil (b : ℕ) : chunkTrace b [] = [] := by
  rw [chunkTrace, dif_neg (by simp only [List.length_nil]; omega)]
  simp

lemma chunkTrace_one (s : ℤ) (rest : List ℤ) :
    chunkTrace 1 (s :: rest) = Ev.fetch s :: Ev.sleep 60 :: chunkTrace 18 rest := by
  rw [chunkTrace, dif_pos (by simp only [List.length_cons]; omega)]
  simp

lemma chunkTrace_cons (b : ℕ) (s : ℤ) (rest : List ℤ) (hb : 2 ≤ b) :
    chunkTrace b (s :: rest) = Ev.fetch s :: chunkTrace (b - 1) rest := by
  obtain ⟨b2, rfl⟩ : ∃ b2, b = b2 + 2 := ⟨b - 2, by omega⟩
  rw [chunkTrace]
  conv_rhs => rw [chunkTrace]
  simp only [List.take_succ_cons, List.map_cons, List.drop_succ_cons,
    List.length_cons, Nat.add_sub_cancel, List.cons_append]
  by_cases hc : b2 + 1 ≤ rest.length
  · rw [dif_pos (by omega), dif_pos (by omega)]
    norm_num
  · rw [dif_neg (by omega), dif_neg (by omega)]
    norm_num

lemma fetchLoop_trace (svc : Service) :
    ∀ (ids : List ℤ) (c w : ℕ), 1 ≤ c → c ≤ 18 →
      (∀ s ∈ ids, svc.fetchStatus s = 200) →
      (∀ s ∈ ids, ∀ v, (processRecords v (svc.fetchBody s)).isSome = true) →
      (fetchLoop svc ids c w).1 = chunkTrace (19 - c) ids := by
  intro ids
  induction ids with
  | nil =>
    intro c w _ _ _ _
    simp [fetchLoop, chunkTrace_nil]
  | cons s rest ih =>
    intro c w h1 h2 h200 hpr
    have hs : svc.fetchStatus s = 200 := h200 s (List.mem_cons_self s rest)
    obtain ⟨⟨ws, w2⟩, hpe⟩ :=
      Option.isSome_iff_exists.mp (hpr s (List.mem_cons_self s rest) w)
    have h200r : ∀ x ∈ rest, svc.fetchStatus x = 200 :=
      fun x hx => h200 x (List.mem_cons_of_mem s hx)
    have hprr : ∀ x ∈ rest, ∀ v, (processRecords v (svc.fetchBody x)).isSome = true :=
      fun x hx => hpr x (List.mem_cons_of_mem s hx)
    by_cases hc : c = 18
    · subst hc
      rw [show (19 : ℕ) - 18 = 1 from rfl, chunkTrace_one]
      simp only [fetchLoop, hs, hpe]
      norm_num
      exact ih 1 w2 (by omega) (by omega) h200r hprr
    · rw [chunkTrace_cons (19 - c) s rest (by omega),
        show (19 : ℕ) - c - 1 = 19 - (c + 1) by omega]
      simp only [fetchLoop, hs, hpe]
      have hlt : ¬ c + 1 > 18 := by omega
      simp only [hlt, if_false]
      norm_num
      exact ih (c + 1) w2 (by omega) (by omega) h200r hprr

/-- C4: starting from `maxs = 1`, a run whose fetches all succeed produces
exactly the trace `chunkTrace 18 ids`: 18 fetch events, then one
`sleep 60`, then 18 more fetches, and so on — so exactly one cool-down
pause follows every 18th request, the counter resets after it, no pause
occurs during the next 17 requests, and at most 18 requests are issued
per cool-down cycle. -/
theorem c4_rate_limit_trace (svc : Service) (ids : List ℤ) (w : ℕ)
    (h200 : ∀ s ∈ ids, svc.fetchStatus s = 200)
    (hpr : ∀ s ∈ ids, ∀ v, (processRecords v (svc.fetchBody s)).isSome = true) :
    (fetchLoop svc ids 1 w).1 = chunkTrace 18 ids :=
  fetchLoop_trace svc ids 1 w (by omega) (by omega) h200 hpr

/-- C4 witness: twenty all-successful objects. -/
theorem c4_witness :
    (fetchLoop svcAllOk idsTwenty 1 3).1 = chunkTrace 18 idsTwenty :=
  c4_rate_limit_trace svcAllOk idsTwenty 3 (fun _ _ => rfl) (fun _ _ _ => rfl)

/-- C5 counterexample: with the login rejected, the exception actually
raised is the interpreter's `TypeError` about the malformed two-argument
`MyError` call — not an authentication error carrying the login
message. -/
theorem c5_counterexample :
    (runPipeline svcAuthFail).2.2 = Except.error (RunError.typeError arityMsg) ∧
      RunError.typeError arityMsg ≠ RunError.myError "POST fail on login" := by
  constructor
  · simp [runPipeline, svcAuthFail, raiseMyError]
  · simp

/-- C5 (amended): a non-success login status still aborts the run with an
exception before any data request — the trace is just the login request,
so zero candidate-list queries and zero per-object fetches — but the
exception is not an authentication error: `MyError(resp, msg)` passes two
arguments to the one-argument `__init__`, so the interpreter raises
`TypeError` with its fixed arity message and the login message is
lost. -/
theorem c5_auth_failure (svc : Service) (h : svc.loginStatus ≠ 200) :
    runPipeline svc =
      ([Ev.login], [], Except.error (RunError.typeError arityMsg)) ∧
      ∀ msg, runPipeline svc ≠
        ([Ev.login], [], Except.error (RunError.myError msg)) := by
  have h1 : runPipeline svc =
      ([Ev.login], [], Except.error (RunError.typeError arityMsg)) := by
    simp [runPipeline, h, raiseMyError]
  refine ⟨h1, fun msg hcontra => ?_⟩
  rw [h1] at hcontra
  simp at hcontra

/-- C5 witness: a service rejecting the login with status 500. -/
theorem c5_witness :
    svcAuthFail.loginStatus ≠ 200 ∧
      runPipeline svcAuthFail =
        ([Ev.login], [], Except.error (RunError.typeError arityMsg)) :=
  ⟨by decide, (c5_auth_failure svcAuthFail (by decide)).1⟩

lemma doneWrites_cons (svc : Service) (x : ℤ) (done : List ℤ) (w w2 : ℕ)
    (ws : List (ℕ × ℕ × Cell))
    (hpe : processRecords w (svc.fetchBody x) = some (ws, w2)) :
    doneWrites svc (x :: done) w = ws ++ doneWrites svc done w2 := by
  simp [doneWrites, hpe]

lemma fetchLoop_err (svc : Service) (s : ℤ) (rest : List ℤ)
    (hfail : svc.fetchStatus s ≠ 200) :
    ∀ (done : List ℤ) (c w : ℕ),
      (∀ x ∈ done, svc.fetchStatus x = 200) →
      (∀ x ∈ done, ∀ v, (processRecords v (svc.fetchBody x)).isSome = true) →
      (fetchLoop svc (done ++ s :: rest) c w).2.2 =
          Except.error (raiseMyError ("GET fail for debris object " ++ toString s)) ∧
        (fetchLoop svc (done ++ s :: rest) c w).1.filter isFetchEv =
          (done ++ [s]).map Ev.fetch ∧
        (fetchLoop svc (done ++ s :: rest) c w).2.1 = doneWrites svc done w := by
  intro done
  induction done with
  | nil =>
    intro c w _ _
    simp [fetchLoop, hfail, doneWrites, isFetchEv]
  | cons x done' ih =>
    intro c w h200 hpr
    have hx : svc.fetchStatus x = 200 := h200 x (List.mem_cons_self x done')
    obtain ⟨⟨ws, w2⟩, hpe⟩ :=
      Option.isSome_iff_exists.mp (hpr x (List.mem_cons_self x done') w)
    have h200r : ∀ y ∈ done', svc.fetchStatus y = 200 :=
      fun y hy => h200 y (List.mem_cons_of_mem x hy)
    have hprr : ∀ y ∈ done', ∀ v, (processRecords v (svc.fetchBody y)).isSome = true :=
      fun y hy => hpr y (List.mem_cons_of_mem x hy)
    rw [doneWrites_cons svc x done' w w2 ws hpe]
    by_cases hc : c + 1 > 18
    · have ihr := ih 1 w2 h200r hprr
      simp only [List.cons_append, fetchLoop, hx, hpe, hc, if_true]
      norm_num [isFetchEv]
      exact ⟨ihr.1, by rw [ihr.2.1]; simp, ihr.2.2⟩
    · have ihr := ih (c + 1) w2 h200r hprr
      simp only [List.cons_append, fetchLoop, hx, hpe, hc, if_false]
      norm_num [isFetchEv]
      exact ⟨ihr.1, by rw [ihr.2.1]; simp, ihr.2.2⟩

/-- C6 counterexample: when object 7's fetch fails, the raised error is
the fixed arity `TypeError`, whose message does not contain the
offending identifier 7. -/
theorem c6_counterexample :
    (runPipeline svcFetchFail7).2.2 = Except.error (RunError.typeError arityMsg) ∧
      ¬ strContains arityMsg (toString (7 : ℤ)) := by
  constructor
  · have h := fetchLoop_err svcFetchFail7 7 [] (by decide) [1] 1 3 (by decide)
      (fun _ _ _ => rfl)
    have hrp : (runPipeline svcFetchFail7).2.2 =
        (fetchLoop svcFetchFail7 [(1 : ℤ), 7] 1 3).2.2 := by
      simp [runPipeline, svcFetchFail7, recId]
    rw [hrp]
    exact h.1
  · rintro ⟨pre, suf, hdec⟩
    have h7 : ('7' : Char) ∈ arityMsg.data := by
      rw [show arityMsg.data = pre.data ++ (toString (7 : ℤ)).data ++ suf.data by
        rw [hdec]; rfl]
      simp [show (toString (7 : ℤ)).data = ['7'] by decide]
    revert h7
    decide

/-- C6 (amended): the first per-object fetch with a non-success status
aborts the run at once — fetch events occur exactly for the successful
prefix and the failing id (none for the remaining ids), and the emitted
cells are exactly those of the successful prefix — but the raised
exception is the interpreter's `TypeError` about the malformed
two-argument `MyError` call: its message is the same for every object
and never a `MyError` naming the offending identifier. -/
theorem c6_fetch_failure_aborts (svc : Service) (done : List ℤ) (s : ℤ)
    (rest : List ℤ)
    (hlogin : svc.loginStatus = 200) (hlist : svc.listStatus = 200)
    (hids : svc.listBody.filterMap Record.noradCatId = done ++ s :: rest)
    (h200 : ∀ x ∈ done, svc.fetchStatus x = 200)
    (hpr : ∀ x ∈ done, ∀ v, (processRecords v (svc.fetchBody x)).isSome = true)
    (hfail : svc.fetchStatus s ≠ 200) :
    (runPipeline svc).2.2 = Except.error (RunError.typeError arityMsg) ∧
      (∀ msg, (runPipeline svc).2.2 ≠ Except.error (RunError.myError msg)) ∧
      (runPipeline svc).1.filter isFetchEv = (done ++ [s]).map Ev.fetch ∧
      (runPipeline svc).2.1 = doneWrites svc done 3 := by
  have h := fetchLoop_err svc s rest hfail done 1 3 h200 hpr
  have hres : (runPipeline svc).2.2 = Except.error (RunError.typeError arityMsg) := by
    simp only [runPipeline, hlogin, hlist, hids]
    norm_num
    exact h.1
  refine ⟨hres, fun msg hcontra => ?_, ?_, ?_⟩
  · rw [hres] at hcontra
    simp at hcontra
  · simp only [runPipeline, hlogin, hlist, hids]
    norm_num [isFetchEv]
    rw [h.2.1]
    simp
  · simp only [runPipeline, hlogin, hlist, hids]
    norm_num
    exact h.2.2

/-- C6 witness: object 2's fetch fails after object 1 succeeded. -/
theorem c6_witness :
    svcFetchFail.fetchStatus 2 ≠ 200 ∧
      (runPipeline svcFetchFail).2.2 = Except.error (RunError.typeError arityMsg) :=
  ⟨by decide,
    (c6_fetch_failure_aborts svcFetchFail [1] 2 [] rfl rfl rfl (by decide)
      (fun _ _ _ => rfl) (by decide)).1⟩

lemma processRecords_append_some (l1 l2 : List Record) :
    ∀ (w w1 w2 : ℕ) (ws1 ws2 : List (ℕ × ℕ × Cell)),
      processRecords w l1 = some (ws1, w1) →
      processRecords w1 l2 = some (ws2, w2) →
      processRecords w (l1 ++ l2) = some (ws1 ++ ws2, w2) := by
  induction l1 with
  | nil =>
    intro w w1 w2 ws1 ws2 h1 h2
    simp only [processRecords, Option.some.injEq, Prod.mk.injEq] at h1
    obtain ⟨rfl, rfl⟩ := h1
    simpa using h2
  | cons e rest ih =>
    intro w w1 w2 ws1 ws2 h1 h2
    simp only [processRecords] at h1
    cases hrow : processRecord w e with
    | none => rw [hrow] at h1; simp at h1
    | some row =>
      rw [hrow] at h1
      cases hrest : processRecords (w + 1) rest with
      | none => rw [hrest] at h1; simp at h1
      | some p =>
        obtain ⟨p1, p2⟩ := p
        rw [hrest] at h1
        simp only [Option.some_bind, Option.map_some', Option.some.injEq,
          Prod.mk.injEq] at h1
        obtain ⟨rfl, rfl⟩ := h1
        have hcat := ih (w + 1) p2 w2 p1 ws2 hrest h2
        rw [List.cons_append]
        simp only [processRecords, hrow, hcat, Option.some_bind, Option.map_some',
          Option.some.injEq, Prod.mk.injEq, List.append_assoc]

lemma processRecords_pos (l : List Record) :
    ∀ (w : ℕ), (∀ e ∈ l, 0 < mmotiOf e) →
      ∃ ws, processRecords w l = some (ws, w + l.length) := by
  induction l with
  | nil => intro w _; exact ⟨[], by simp [processRecords]⟩
  | cons e rest ih =>
    intro w hpos
    obtain ⟨ws, hws⟩ := ih (w + 1) (fun x hx => hpos x (List.mem_cons_of_mem e hx))
    have hd := derive2_eval (eccOf e) (hpos e (List.mem_cons_self e rest))
    cases hrow : processRecord w e with
    | none => simp [processRecord, hd] at hrow
    | some row =>
      refine ⟨row ++ ws, ?_⟩
      simp only [processRecords, hrow, hws, Option.some_bind, Option.map_some',
        List.length_cons]
      rw [show w + 1 + rest.length = w + (rest.length + 1) by omega]

lemma recsOf_nil (svc : Service) : recsOf svc [] = [] := by simp [recsOf]

lemma recsOf_cons (svc : Service) (s : ℤ) (rest : List ℤ) :
    recsOf svc (s :: rest) = svc.fetchBody s ++ recsOf svc rest := by
  simp [recsOf]

lemma fetchLoop_ok (svc : Service) :
    ∀ (ids : List ℤ) (c w : ℕ),
      (∀ s ∈ ids, svc.fetchStatus s = 200) →
      (∀ e ∈ recsOf svc ids, 0 < mmotiOf e) →
      ∃ ws,
        processRecords w (recsOf svc ids) = some (ws, w + (recsOf svc ids).length) ∧
        (fetchLoop svc ids c w).2.1 = ws ∧
        (fetchLoop svc ids c w).2.2 = Except.ok (w + (recsOf svc ids).length) := by
  intro ids
  induction ids with
  | nil =>
    intro c w _ _
    exact ⟨[], by simp [processRecords, recsOf_nil, fetchLoop]⟩
  | cons s rest ih =>
    intro c w h200 hpos
    have hs : svc.fetchStatus s = 200 := h200 s (List.mem_cons_self s rest)
    rw [recsOf_cons] at hpos ⊢
    obtain ⟨ws1, hws1⟩ :=
      processRecords_pos (svc.fetchBody s) w
        (fun e he => hpos e (List.mem_append_left _ he))
    have h200r : ∀ x ∈ rest, svc.fetchStatus x = 200 :=
      fun x hx => h200 x (List.mem_cons_of_mem s hx)
    have hposr : ∀ e ∈ recsOf svc rest, 0 < mmotiOf e :=
      fun e he => hpos e (List.mem_append_right _ he)
    by_cases hc : c + 1 > 18
    · obtain ⟨ws2, hws2, hl1, hl2⟩ :=
        ih 1 (w + (svc.fetchBody s).length) h200r hposr
      have happ := processRecords_append_some (svc.fetchBody s) (recsOf svc rest)
        w (w + (svc.fetchBody s).length)
        (w + (svc.fetchBody s).length + (recsOf svc rest).length)
        ws1 ws2 hws1 hws2
      refine ⟨ws1 ++ ws2, ?_, ?_, ?_⟩
      · rw [happ, List.length_append, ← Nat.add_assoc]
      · simp only [fetchLoop, hs, hws1, hc, ne_eq, if_true]
        norm_num
        rw [hl1]
      · simp only [fetchLoop, hs, hws1, hc, ne_eq, if_true]
        norm_num
        rw [hl2, ← Nat.add_assoc]
    · obtain ⟨ws2, hws2, hl1, hl2⟩ :=
        ih (c + 1) (w + (svc.fetchBody s).length) h200r hposr
      have happ := processRecords_append_some (svc.fetchBody s) (recsOf svc rest)
        w (w + (svc.fetchBody s).length)
        (w + (svc.fetchBody s).length + (recsOf svc rest).length)
        ws1 ws2 hws1 hws2
      refine ⟨ws1 ++ ws2, ?_, ?_, ?_⟩
      · rw [happ, List.length_append, ← Nat.add_assoc]
      · simp only [fetchLoop, hs, hws1, hc, ne_eq, if_false]
        norm_num
        rw [hl1]
      · simp only [fetchLoop, hs, hws1, hc, ne_eq, if_false]
        norm_num
        rw [hl2, ← Nat.add_assoc]

/-- C9: on a fully successful run the pipeline emits exactly the cell
writes of `processRecords 3` over all fetched element records in order —
one 16-cell block per record at consecutive worksheet lines — and each
record's block sits on its single line at columns 0–15 carrying, in
order: CatalogId, Name, Epoch, RevolutionsAtEpoch, InclinationDeg,
Eccentricity, MeanMotion, ApogeeAltitudeKm, PerigeeAltitudeKm,
AverageAltitudeKm, RaanDeg, ArgPerigeeDeg, MeanAnomalyDeg,
SemiMajorAxisKm, PeriodSeconds, VelocityKmPerSec. -/
theorem c9_row_shape (svc : Service)
    (hlogin : svc.loginStatus = 200) (hlist : svc.listStatus = 200)
    (h200 : ∀ s ∈ svc.listBody.filterMap Record.noradCatId,
      svc.fetchStatus s = 200)
    (hpos : ∀ e ∈ allRecords svc, 0 < mmotiOf e) :
    (processRecords 3 (allRecords svc) =
        some ((runPipeline svc).2.1, 3 + (allRecords svc).length) ∧
      (runPipeline svc).2.2 = Except.ok (3 + (allRecords svc).length)) ∧
      ∀ (w : ℕ) (e : Record) (d : Derived),
        derive2 (mmotiOf e) (eccOf e) = some d →
        processRecord w e = some
          [(w, 0, Cell.int (catalogIdOf e)),
           (w, 1, Cell.str (nameOf e)),
           (w, 2, Cell.str (epochOf e)),
           (w, 3, Cell.real (revAtEpochOf e)),
           (w, 4, Cell.real (inclinationOf e)),
           (w, 5, Cell.real (eccOf e)),
           (w, 6, Cell.real (mmotiOf e)),
           (w, 7, Cell.real d.apo),
           (w, 8, Cell.real d.per),
           (w, 9, Cell.real ((d.apo + d.per) / 2)),
           (w, 10, Cell.real (raanOf e)),
           (w, 11, Cell.real (argpOf e)),
           (w, 12, Cell.real (mnaOf e)),
           (w, 13, Cell.real d.sma),
           (w, 14, Cell.real d.orbT),
           (w, 15, Cell.real d.orbV)] := by
  constructor
  · obtain ⟨ws, hws, hl1, hl2⟩ :=
      fetchLoop_ok svc (svc.listBody.filterMap Record.noradCatId) 1 3 h200 hpos
    have hrp1 : (runPipeline svc).2.1 =
        (fetchLoop svc (svc.listBody.filterMap Record.noradCatId) 1 3).2.1 := by
      simp only [runPipeline, hlogin, hlist]
      norm_num
    have hrp2 : (runPipeline svc).2.2 =
        (fetchLoop svc (svc.listBody.filterMap Record.noradCatId) 1 3).2.2 := by
      simp only [runPipeline, hlogin, hlist]
      norm_num
    rw [hrp1, hrp2, hl1, hl2]
    exact ⟨hws, rfl⟩
  · intro w e d hd
    simp [processRecord, hd]

/-- C9 witness: one object, one element record. -/
theorem c9_witness :
    (runPipeline svcOne).2.2 = Except.ok (3 + (allRecords svcOne).length) :=
  ((c9_row_shape svcOne rfl rfl (fun _ _ => rfl)
    (by
      intro e he
      rw [show allRecords svcOne = [recISS] from rfl, List.mem_singleton] at he
      subst he
      norm_num [mmotiOf, recISS])).1).2
